import Mathlib

/-!
Verification of the LSM key-value store's HTTP façade and engine contract.

The HTTP handlers are embedded from `src/server/index.ts` (class `HTTPServer`).
Request bodies arrive as parsed JSON, so JavaScript runtime values are modelled
by the inductive `JVal`; each handler is a pure function from its inputs to a
result describing the HTTP status and JSON payload it produces.

The storage engine (`LSMStore`) is not part of the repository slice under
verification; handlers take the store operations they invoke as parameters,
and a separate model of the engine (marked `Modelled from the spec:`) supplies
them where an engine-level claim requires it.
-/

/-- A JavaScript runtime value as produced by `JSON.parse` (plus `undefined`,
which stands for an absent field or array hole). Numbers are modelled as
integers; no claim depends on non-integral numerics. -/
inductive JVal where
  | jsNull : JVal
  | undef : JVal
  | str : String → JVal
  | num : Int → JVal
  | bool : Bool → JVal
  | arr : List JVal → JVal
  | obj : List (String × JVal) → JVal

/-- Property access `v.name` in JavaScript: a field of an object, `undefined`
otherwise (arrays, primitives and `null` have no such own property here). -/
def jgetField (v : JVal) (name : String) : JVal :=
  match v with
  | JVal.obj fields =>
    match fields.find? (fun p => p.1 == name) with
    | some p => p.2
    | none => JVal.undef
  | _ => JVal.undef

/-- JavaScript falsiness: `null`, `undefined`, `false`, `0` and `""` are falsy. -/
def jfalsy : JVal → Bool
  | JVal.jsNull => true
  | JVal.undef => true
  | JVal.bool b => !b
  | JVal.num n => n == 0
  | JVal.str s => s == ""
  | JVal.arr _ => false
  | JVal.obj _ => false

/-- Test for `value === undefined || value === null`. -/
def isNullish : JVal → Bool
  | JVal.jsNull => true
  | JVal.undef => true
  | _ => false

/-- Test for `typeof v === 'string' && v.length > 0`. -/
def isNonEmptyStr : JVal → Bool
  | JVal.str s => s ≠ ""
  | _ => false

/-- The underlying string of a `JVal.str`, `""` otherwise. -/
def strOf : JVal → String
  | JVal.str s => s
  | _ => ""

mutual

/-- JavaScript `String(v)` coercion; an array renders as
`Array.prototype.join(",")` of its elements. -/
def jsToString : JVal → String
  | JVal.jsNull => "null"
  | JVal.undef => "undefined"
  | JVal.str s => s
  | JVal.num n => toString n
  | JVal.bool b => if b then "true" else "false"
  | JVal.arr xs => jsToStringList xs
  | JVal.obj _ => "[object Object]"

/-- Comma-joined rendering of an array's elements (`Array.prototype.join`):
`null` and `undefined` elements render as the empty string. -/
def jsToStringList : List JVal → String
  | [] => ""
  | [JVal.jsNull] => ""
  | [JVal.undef] => ""
  | [x] => jsToString x
  | JVal.jsNull :: y :: xs => "," ++ jsToStringList (y :: xs)
  | JVal.undef :: y :: xs => "," ++ jsToStringList (y :: xs)
  | x :: y :: xs => jsToString x ++ "," ++ jsToStringList (y :: xs)

end

/-! ### `POST /put` — `handlePut`, src/server/index.ts lines 179–195 -/

/-- Outcome of `handlePut`: 500 when the handler throws (answered by
`handleRequest`'s catch at lines 169–172), 400 with an error message, or 200
with `{success:true}` after `store.put(key, String(value))` was invoked with
the recorded key and coerced value. -/
inductive PutResult where
  | internalError : PutResult
  | badRequest : String → PutResult
  | ok : String → String → PutResult
deriving DecidableEq

/-- HTTP status of a `PutResult`. -/
def PutResult.statusOf : PutResult → Nat
  | PutResult.internalError => 500
  | PutResult.badRequest _ => 400
  | PutResult.ok _ _ => 200

/-- Embedding of `handlePut`: the destructuring `const { key, value } = body`
at line 181 throws a `TypeError` when the body is `null` (or `undefined`),
which `handleRequest`'s catch answers with 500; otherwise the handler rejects
a key that is not a non-empty string, rejects a `null`/`undefined` value, and
otherwise stores `(key, String(value))`. -/
def handlePut (body : JVal) : PutResult :=
  if isNullish body then
    PutResult.internalError
  else
    let key := jgetField body "key"
    let value := jgetField body "value"
    if !(isNonEmptyStr key) then
      PutResult.badRequest "Invalid key: must be non-empty string"
    else if isNullish value then
      PutResult.badRequest "Invalid value: must not be null or undefined"
    else
      PutResult.ok (strOf key) (jsToString value)

/-! ### `GET /get/:key` — `handleGet`, src/server/index.ts lines 250–266 -/

/-- Outcome of `handleGet`: 400 on a missing key parameter, 404 with the key
when the store reported absence, or 200 with `{key, value}`. -/
inductive GetResult where
  | badRequest : String → GetResult
  | notFound : String → GetResult
  | ok : String → String → GetResult
deriving DecidableEq

/-- HTTP status of a `GetResult`. -/
def GetResult.statusOf : GetResult → Nat
  | GetResult.badRequest _ => 400
  | GetResult.notFound _ => 404
  | GetResult.ok _ _ => 200

/-- Embedding of `handleGet`: `key` is the decoded route parameter, `stored`
the result of `store.get(key)` (`none` models the interface's `null`). -/
def handleGet (key : String) (stored : Option String) : GetResult :=
  if key == "" then GetResult.badRequest "Key parameter required"
  else
    match stored with
    | none => GetResult.notFound key
    | some v => GetResult.ok key v

/-! ### `DELETE /delete/:key` — `handleDelete`, src/server/index.ts lines 268–278 -/

/-- Outcome of `handleDelete`: 400 on a missing key parameter, else 200 with
`{success:true}`; the `ok` constructor records the key passed to
`store.delete`. -/
inductive DelResult where
  | badRequest : String → DelResult
  | ok : String → DelResult
deriving DecidableEq

/-- HTTP status of a `DelResult`. -/
def DelResult.statusOf : DelResult → Nat
  | DelResult.badRequest _ => 400
  | DelResult.ok _ => 200

/-- Embedding of `handleDelete`: rejects an empty key parameter, otherwise
invokes `store.delete(key)` unconditionally and reports success. The handler
never consults the store's contents. -/
def handleDelete (key : String) : DelResult :=
  if key == "" then DelResult.badRequest "Key parameter required"
  else DelResult.ok key

/-! ### `POST /batch-put` — `handleBatchPut`, src/server/index.ts lines 197–248 -/

/-- Outcome of `handleBatchPut`: 500 when the handler throws (answered by
`handleRequest`'s catch), 400 with a message, or 200 with
`{success:true, count}` where the count is the return value of
`store.batchPut(parsedEntries)`. -/
inductive BatchResult where
  | internalError : BatchResult
  | badRequest : String → BatchResult
  | ok : Nat → BatchResult
deriving DecidableEq

/-- HTTP status of a `BatchResult`. -/
def BatchResult.statusOf : BatchResult → Nat
  | BatchResult.internalError => 500
  | BatchResult.badRequest _ => 400
  | BatchResult.ok _ => 200

/-- Embedding of the `entries` validation loop (index `i` tracks the loop
counter used in the error messages): each element must be truthy, carry a
non-empty string `key` and a non-`null`/`undefined` `value`; the first
violation aborts with the corresponding 400 message. -/
def parseEntriesFrom (i : Nat) : List JVal → Except String (List (String × String))
  | [] => Except.ok []
  | e :: rest =>
    if jfalsy e || !(isNonEmptyStr (jgetField e "key")) then
      Except.error s!"Invalid key at index {i}: must be non-empty string"
    else if isNullish (jgetField e "value") then
      Except.error s!"Invalid value at index {i}: must not be null or undefined"
    else
      match parseEntriesFrom (i + 1) rest with
      | Except.error msg => Except.error msg
      | Except.ok tail =>
        Except.ok ((strOf (jgetField e "key"), jsToString (jgetField e "value")) :: tail)

/-- Embedding of the `keys`/`values` validation loop: the loop runs over the
indices of `keys`, reading `values[i]` (which is `undefined` past the end of
the array, although the handler only reaches this loop when the lengths
match). -/
def parseKVFrom (i : Nat) : List JVal → List JVal → Except String (List (String × String))
  | [], _ => Except.ok []
  | k :: ks, vs =>
    let v := vs.headD JVal.undef
    if !(isNonEmptyStr k) then
      Except.error s!"Invalid key at index {i}: must be non-empty string"
    else if isNullish v then
      Except.error s!"Invalid value at index {i}: must not be null or undefined"
    else
      match parseKVFrom (i + 1) ks vs.tail with
      | Except.error msg => Except.error msg
      | Except.ok tail => Except.ok ((strOf k, jsToString v) :: tail)

/-- Embedding of `handleBatchPut`: the destructuring
`const { entries, keys, values } = body` at line 199 throws a `TypeError`
when the body is `null` (or `undefined`), which `handleRequest`'s catch
answers with 500; otherwise the handler accepts an `entries` array, or else
parallel `keys` and `values` arrays of equal length, validates every entry,
rejects an empty parsed batch, and otherwise reports the count returned by
`store.batchPut` (the parameter `batchPut`). -/
def handleBatchPut (batchPut : List (String × String) → Nat) (body : JVal) : BatchResult :=
  if isNullish body then
    BatchResult.internalError
  else
  match jgetField body "entries" with
  | JVal.arr es =>
    match parseEntriesFrom 0 es with
    | Except.error msg => BatchResult.badRequest msg
    | Except.ok pes =>
      if pes.length == 0 then BatchResult.badRequest "No entries provided"
      else BatchResult.ok (batchPut pes)
  | _ =>
    match jgetField body "keys", jgetField body "values" with
    | JVal.arr ks, JVal.arr vs =>
      if ks.length != vs.length then
        BatchResult.badRequest "Keys and values arrays must have the same length"
      else
        match parseKVFrom 0 ks vs with
        | Except.error msg => BatchResult.badRequest msg
        | Except.ok pes =>
          if pes.length == 0 then BatchResult.badRequest "No entries provided"
          else BatchResult.ok (batchPut pes)
    | _, _ =>
      BatchResult.badRequest
        "Invalid request body: provide either \"entries\" array or \"keys\" and \"values\" arrays"

/-! ### `GET /range` — `handleRange`, src/server/index.ts lines 280–308 -/

/-- Value of a run of decimal digit characters. -/
def digitsToNat (l : List Char) : Nat :=
  l.foldl (fun a c => a * 10 + (c.toNat - 48)) 0

/-- JavaScript `parseInt(s, 10)`: skip leading whitespace, read an optional
sign, then the longest prefix of decimal digits; `none` models `NaN` (no
digits found). -/
def jsParseInt (s : String) : Option Int :=
  let l := s.data.dropWhile (fun c => c == ' ' || c == '\t' || c == '\n' || c == '\r')
  let signRest : Int × List Char :=
    match l with
    | '-' :: t => (-1, t)
    | '+' :: t => (1, t)
    | _ => (1, l)
  let ds := signRest.2.takeWhile Char.isDigit
  if ds.isEmpty then none else some (signRest.1 * (digitsToNat ds : Int))

/-- Outcome of `handleRange`: 400 with a message, or 200 with
`{count: results.length, results}`. -/
inductive RangeResult where
  | badRequest : String → RangeResult
  | ok : List (String × String) → RangeResult
deriving DecidableEq

/-- HTTP status of a `RangeResult`. -/
def RangeResult.statusOf : RangeResult → Nat
  | RangeResult.badRequest _ => 400
  | RangeResult.ok _ => 200

/-- Results list of a `RangeResult` (empty on a 400). -/
def RangeResult.resultsOf : RangeResult → List (String × String)
  | RangeResult.badRequest _ => []
  | RangeResult.ok rs => rs

/-- Embedding of `handleRange`: `start` and `end` must be present non-empty
query strings; an absent `limit` defaults to 100, a present one goes through
`parseInt(limit, 10)` and is rejected when `NaN` or `< 1`; the handler then
drains `store.readKeyRange(start, end, {limit})` (the parameter `rkr`). -/
def handleRange (rkr : String → String → Nat → List (String × String))
    (qstart qend qlimit : Option String) : RangeResult :=
  match qstart with
  | none => RangeResult.badRequest "Invalid start: must be non-empty string"
  | some s =>
    if s == "" then RangeResult.badRequest "Invalid start: must be non-empty string"
    else
      match qend with
      | none => RangeResult.badRequest "Invalid end: must be non-empty string"
      | some e =>
        if e == "" then RangeResult.badRequest "Invalid end: must be non-empty string"
        else
          match qlimit with
          | none => RangeResult.ok (rkr s e 100)
          | some ls =>
            match jsParseInt ls with
            | none => RangeResult.badRequest "Invalid limit: must be positive integer"
            | some n =>
              if n < 1 then RangeResult.badRequest "Invalid limit: must be positive integer"
              else RangeResult.ok (rkr s e n.toNat)

/-! ### `GET /replication/status` — `handleReplicationStatus`,
src/server/index.ts lines 310–325, with the adapters of
src/server/ReplicationStatusAdapter.ts. The state and metrics types live in
`src/replication/ReplicationTypes.ts`, outside the verified slice, so they
are type parameters here. -/

/-- Shape returned by `IReplicationStatusProvider.getReplicationStatus()`. -/
structure ReplicationStatus (σ μ : Type) where
  state : σ
  metrics : μ
deriving DecidableEq

/-- The `IReplicationStatusProvider` capability: a single
`getReplicationStatus` accessor. -/
structure IReplicationStatusProvider (σ μ : Type) where
  getReplicationStatus : ReplicationStatus σ μ

/-- The slice of `IReplicationManager` the adapter consumes. -/
structure IReplicationManager (σ μ : Type) where
  getState : σ
  getMetrics : μ

/-- The slice of `IReplicationServer` the adapter consumes. -/
structure IReplicationServer (σ μ : Type) where
  getState : σ
  getMetrics : μ

/-- Embedding of `ReplicationManagerStatusAdapter`: wraps a manager and
returns its `getState()` and `getMetrics()` as the status. -/
def ReplicationManagerStatusAdapter {σ μ : Type} (m : IReplicationManager σ μ) :
    IReplicationStatusProvider σ μ :=
  ⟨⟨m.getState, m.getMetrics⟩⟩

/-- Embedding of `ReplicationServerStatusAdapter`: wraps a server and returns
its `getState()` and `getMetrics()` as the status. -/
def ReplicationServerStatusAdapter {σ μ : Type} (s : IReplicationServer σ μ) :
    IReplicationStatusProvider σ μ :=
  ⟨⟨s.getState, s.getMetrics⟩⟩

/-- Response of `handleReplicationStatus`: 200 either way, with
`enabled:false` plus a message, or `enabled:true` plus state and metrics. -/
inductive ReplStatusResponse (σ μ : Type) where
  | disabled : String → ReplStatusResponse σ μ
  | enabledWith : σ → μ → ReplStatusResponse σ μ

/-- The `enabled` flag of a `ReplStatusResponse`. -/
def ReplStatusResponse.enabledFlag {σ μ : Type} : ReplStatusResponse σ μ → Bool
  | ReplStatusResponse.disabled _ => false
  | ReplStatusResponse.enabledWith _ _ => true

/-- Embedding of `handleReplicationStatus`: without a configured provider it
reports `enabled:false`; with one it reports `enabled:true` together with the
provider's state and metrics. -/
def handleReplicationStatus {σ μ : Type}
    (provider : Option (IReplicationStatusProvider σ μ)) : ReplStatusResponse σ μ :=
  match provider with
  | none => ReplStatusResponse.disabled "Replication not configured (standalone mode)"
  | some p =>
    ReplStatusResponse.enabledWith p.getReplicationStatus.state p.getReplicationStatus.metrics

/-! ### Engine model

The `LSMStore` engine itself is outside the repository slice (only the façade
and tests are present), so the definitions below are a model of the engine's
read/write/scan contract built from the specification's words. -/

/-- Modelled from the spec: a MemTable/SSTable slot holds, per key, either a
live value or a tombstone ("Tombstone: marker indicating a key has been
deleted; shadows older values"). -/
inductive Entry where
  | value : String → Entry
  | tombstone : Entry
deriving DecidableEq

/-- Modelled from the spec: one in-memory or on-disk table, as an association
list with at most one live entry per key ("at most one live entry per key; a
newer write (including tombstone) replaces the prior entry"). -/
def KTable : Type := List (String × Entry)

/-- Modelled from the spec: engine state — the active MemTable, the sealed
MemTables newest first, and the level-0 SSTables newest first ("probe active
MemTable → sealed MemTables (newest first) → SSTables (newest first)"). -/
structure StoreState where
  active : KTable
  sealedTables : List KTable
  tables : List KTable

/-- Modelled from the spec: the engine state of a freshly initialized empty
store. -/
def emptyStore : StoreState := ⟨[], [], []⟩

/-- Modelled from the spec: insertion into a MemTable replaces any prior
entry for the key ("a newer write (including tombstone) replaces the prior
entry"). -/
def insertReplace (t : KTable) (k : String) (e : Entry) : KTable :=
  match t with
  | [] => [(k, e)]
  | p :: rest => if p.1 == k then (k, e) :: rest else p :: insertReplace rest k e

/-- Modelled from the spec: `put(key,value)` applies the write to the active
MemTable. -/
def storePut (st : StoreState) (k v : String) : StoreState :=
  { st with active := insertReplace st.active k (Entry.value v) }

/-- Modelled from the spec: `delete(key)` stores a tombstone in the active
MemTable ("MemTable stores tombstone"). -/
def storeDelete (st : StoreState) (k : String) : StoreState :=
  { st with active := insertReplace st.active k Entry.tombstone }

/-- Lookup of a key inside one table. -/
def tableFind (t : KTable) (k : String) : Option Entry :=
  match t.find? (fun p => p.1 == k) with
  | some p => some p.2
  | none => none

/-- Modelled from the spec: probe a newest-first list of tables; the first
table containing the key (tombstone or value) wins. -/
def probeTables (ts : List KTable) (k : String) : Option Entry :=
  match ts with
  | [] => none
  | t :: rest =>
    match tableFind t k with
    | some e => some e
    | none => probeTables rest k

/-- Modelled from the spec: `get(key)` probes the active MemTable, then the
sealed MemTables, then the SSTables, newest first; "Tombstone hit returns
'not found'; value hit returns value; full miss returns 'not found'". -/
def storeGet (st : StoreState) (k : String) : Option String :=
  match probeTables (st.active :: (st.sealedTables ++ st.tables)) k with
  | some (Entry.value v) => some v
  | some Entry.tombstone => none
  | none => none

/-- All keys mentioned by any layer of the store, deduplicated. -/
def storeKeys (st : StoreState) : List String :=
  (((st.active :: (st.sealedTables ++ st.tables)).map (fun t => t.map Prod.fst)).flatten).dedup

/-- Lexicographic strict comparison of character lists, by code point. -/
def charsLt : List Char → List Char → Bool
  | [], [] => false
  | [], _ :: _ => true
  | _ :: _, [] => false
  | a :: as, b :: bs =>
    if a < b then true
    else if b < a then false
    else charsLt as bs

/-- Lexicographic `≤` on strings, computed on the underlying characters. -/
def strLeB (a b : String) : Bool := !(charsLt b.data a.data)

/-- Modelled from the spec: the ascending key list a merge iterator visits
for `[a..b]` — every key any source mentions, restricted to the inclusive
bounds and sorted lexicographically. -/
def rangeKeys (st : StoreState) (a b : String) : List String :=
  List.insertionSort (fun x y => strLeB x y = true)
    ((storeKeys st).filter (fun k => strLeB a k && strLeB k b))

/-- Modelled from the spec: the full (unlimited) scan result — for each key
of the range in ascending order, the newest entry is consulted and tombstones
are skipped ("If that entry is a tombstone, emit nothing; otherwise emit
`(key, value)`"). -/
def rangePairs (st : StoreState) (a b : String) : List (String × String) :=
  (rangeKeys st a b).filterMap (fun k => (storeGet st k).map (fun v => (k, v)))

/-- Modelled from the spec: `read_key_range(start, end, {limit})` — the
optional `limit` "caps the number of emitted pairs". -/
def readKeyRange (st : StoreState) (a b : String) (lim : Nat) : List (String × String) :=
  (rangePairs st a b).take lim

/-- Left-pad the decimal rendering of `n` to three digits, as the test's
`String(i).padStart(3, '0')` does for `i ≤ 999`. -/
def pad3 (n : Nat) : String :=
  if n < 10 then "00" ++ toString n
  else if n < 100 then "0" ++ toString n
  else toString n

/-- The store of `testRangeQuery`: keys `rng:001` … `rng:030` with values
`R-1` … `R-30`. -/
def rngStore : StoreState :=
  (List.range 30).foldl
    (fun st i => storePut st ("rng:" ++ pad3 (i + 1)) ("R-" ++ toString (i + 1)))
    emptyStore

/-! ### Ordering facts about the string comparator -/

/-- Correspondence of `charsLt` with the lexicographic strict order on
character lists. -/
theorem charsLt_iff (x y : List Char) : charsLt x y = true ↔ List.Lex (· < ·) x y := by
  induction x generalizing y with
  | nil =>
    cases y with
    | nil => simp [charsLt]
    | cons b bs => simpa [charsLt] using List.Lex.nil
  | cons a as ih =>
    cases y with
    | nil => simp [charsLt]
    | cons b bs =>
      by_cases h1 : a < b
      · simpa [charsLt, h1] using List.Lex.rel h1
      · by_cases h2 : b < a
        · simp only [charsLt, if_neg h1, if_pos h2]
          constructor
          · intro h
            exact absurd h (by simp)
          · intro h
            cases h with
            | cons h' => exact absurd h2 (lt_irrefl a)
            | rel h' => exact absurd h' h1
        · have hab : a = b := le_antisymm (not_lt.mp h2) (not_lt.mp h1)
          subst hab
          simp only [charsLt, if_neg h1, if_neg h2, ih]
          constructor
          · exact List.Lex.cons
          · intro h
            cases h with
            | cons h' => exact h'
            | rel h' => exact absurd h' h1

/-- Correspondence of `strLeB` with the string order. -/
theorem strLeB_iff (a b : String) : strLeB a b = true ↔ a ≤ b := by
  have hlt : charsLt b.data a.data = true ↔ b < a := by
    rw [charsLt_iff]
    exact Iff.symm String.lt_iff_toList_lt
  rw [strLeB, Bool.not_eq_true', ← Bool.not_eq_true, hlt, not_lt]

/-- The comparator relation is total. -/
instance : IsTotal String (fun x y => strLeB x y = true) :=
  ⟨fun x y => by
    rcases le_total x y with h | h
    · exact Or.inl ((strLeB_iff x y).mpr h)
    · exact Or.inr ((strLeB_iff y x).mpr h)⟩

/-- The comparator relation is transitive. -/
instance : IsTrans String (fun x y => strLeB x y = true) :=
  ⟨fun x y z hxy hyz =>
    (strLeB_iff x z).mpr (le_trans ((strLeB_iff x y).mp hxy) ((strLeB_iff y z).mp hyz))⟩

/-! ### Range-scan lemmas for the engine model -/

/-- The key list of a range scan is strictly ascending. -/
theorem rangeKeys_sorted (st : StoreState) (a b : String) :
    (rangeKeys st a b).Sorted (· < ·) := by
  have hs : (rangeKeys st a b).Sorted (fun x y => strLeB x y = true) :=
    List.sorted_insertionSort _ _
  have hle : (rangeKeys st a b).Sorted (· ≤ ·) :=
    hs.imp (fun h => (strLeB_iff _ _).mp h)
  have hnd : (rangeKeys st a b).Nodup := by
    have h1 : (storeKeys st).Nodup := List.nodup_dedup _
    have h2 : ((storeKeys st).filter (fun k => strLeB a k && strLeB k b)).Nodup :=
      h1.filter _
    exact ((List.perm_insertionSort _ _).nodup_iff).mpr h2
  exact hle.lt_of_le hnd

/-- Every key of a range scan lies within the inclusive bounds. -/
theorem rangeKeys_mem_bounds (st : StoreState) (a b k : String)
    (hk : k ∈ rangeKeys st a b) : a ≤ k ∧ k ≤ b := by
  rw [rangeKeys, List.mem_insertionSort, List.mem_filter] at hk
  have h := Bool.and_eq_true_iff.mp hk.2
  exact ⟨(strLeB_iff _ _).mp h.1, (strLeB_iff _ _).mp h.2⟩

/-- The pairs of a full range scan are strictly ascending in their keys. -/
theorem rangePairs_sorted (st : StoreState) (a b : String) :
    (rangePairs st a b).Pairwise (fun p q => p.1 < q.1) := by
  rw [rangePairs, List.pairwise_filterMap]
  refine (rangeKeys_sorted st a b).imp ?_
  intro k k' hkk' p hp q hq
  rcases Option.map_eq_some'.mp hp with ⟨v, _, rfl⟩
  rcases Option.map_eq_some'.mp hq with ⟨w, _, rfl⟩
  exact hkk'

/-- A limited range scan is still strictly ascending in its keys. -/
theorem readKeyRange_sorted (st : StoreState) (a b : String) (lim : Nat) :
    (readKeyRange st a b lim).Pairwise (fun p q => p.1 < q.1) :=
  List.Pairwise.sublist (List.take_sublist _ _) (rangePairs_sorted st a b)

/-- Every pair of a limited range scan has its key within the bounds. -/
theorem readKeyRange_mem_bounds (st : StoreState) (a b : String) (lim : Nat)
    (p : String × String) (hp : p ∈ readKeyRange st a b lim) : a ≤ p.1 ∧ p.1 ≤ b := by
  have hp' : p ∈ rangePairs st a b := List.take_subset _ _ hp
  rcases List.mem_filterMap.mp hp' with ⟨k, hk, he⟩
  rcases Option.map_eq_some'.mp he with ⟨v, _, rfl⟩
  exact rangeKeys_mem_bounds st a b k hk

/-- A write placed by `insertReplace` is the entry found for its key. -/
theorem tableFind_insertReplace (t : KTable) (k : String) (e : Entry) :
    tableFind (insertReplace t k e) k = some e := by
  induction t with
  | nil => simp [insertReplace, tableFind, List.find?]
  | cons p rest ih =>
    by_cases h : p.1 == k
    · simp [insertReplace, h, tableFind, List.find?]
    · simp only [insertReplace, if_neg h]
      simpa [tableFind, List.find?, h] using ih

/-! ### Claims C1–C3 -/

/-- C1: every range scan over `[a..b]` has inclusive bounds and yields a
strictly ascending sequence of keys, each within `[a,b]`; on the store holding
`rng:001 … rng:030`, a scan of `[rng:005..rng:015]` yields exactly the 11 keys
`rng:005 … rng:015`. -/
theorem c1_range_scan_inclusive_sorted :
    (∀ (st : StoreState) (a b : String) (lim : Nat),
      (readKeyRange st a b lim).Pairwise (fun p q => p.1 < q.1)
      ∧ ∀ p ∈ readKeyRange st a b lim, a ≤ p.1 ∧ p.1 ≤ b)
    ∧ (readKeyRange rngStore "rng:005" "rng:015" 100).length = 11
    ∧ (readKeyRange rngStore "rng:005" "rng:015" 100).map Prod.fst
        = ["rng:005", "rng:006", "rng:007", "rng:008", "rng:009", "rng:010",
           "rng:011", "rng:012", "rng:013", "rng:014", "rng:015"] := by
  refine ⟨fun st a b lim => ⟨readKeyRange_sorted st a b lim, ?_⟩, by decide, by decide⟩
  intro p hp
  exact readKeyRange_mem_bounds st a b lim p hp

/-- C2: after `put(k,v)` with no intervening write to `k`, `get(k)` returns
`v`; an overwriting `put(k,v')` makes `get(k)` return `v'`. -/
theorem c2_put_then_get (st : StoreState) (k v w : String) :
    storeGet (storePut st k v) k = some v
    ∧ storeGet (storePut (storePut st k v) k w) k = some w := by
  constructor <;>
    simp [storeGet, storePut, probeTables, tableFind_insertReplace]

/-- C3: after `delete(k)` with no intervening write to `k`, `get(k)` reports
absence — the tombstone shadows any older value — and the HTTP read of `k`
then answers 404. -/
theorem c3_delete_then_get (st : StoreState) (k : String) :
    storeGet (storeDelete st k) k = none
    ∧ (k ≠ "" →
        handleGet k (storeGet (storeDelete st k) k) = GetResult.notFound k) := by
  have hget : storeGet (storeDelete st k) k = none := by
    simp [storeGet, storeDelete, probeTables, tableFind_insertReplace]
  refine ⟨hget, fun hk => ?_⟩
  rw [hget]
  simp [handleGet, hk]

/-- Witness for C3 at the store and key of `testDelete`: after
`put("user:del","ToBeDeleted")` and `delete("user:del")`, the HTTP read
answers 404. -/
theorem c3_delete_then_get_witness :
    handleGet "user:del"
        (storeGet (storeDelete (storePut emptyStore "user:del" "ToBeDeleted") "user:del")
          "user:del")
      = GetResult.notFound "user:del" :=
  (c3_delete_then_get (storePut emptyStore "user:del" "ToBeDeleted") "user:del").2
    (by decide)

/-! ### Claims C4, C5, C10, C8 -/

/-- C4 counterexample: a JSON `null` body carries no non-empty string key,
so the claim demands 400, but the destructuring at line 181 throws and the
request is answered 500. -/
theorem c4_put_null_body_counterexample :
    isNonEmptyStr (jgetField JVal.jsNull "key") = false
    ∧ (handlePut JVal.jsNull).statusOf = 500
    ∧ ¬ (handlePut JVal.jsNull).statusOf = 400 := by
  refine ⟨rfl, rfl, by decide⟩

/-- C4 (amended): for every JSON body other than `null`, `POST /put` answers
400 exactly when the body's `key` is not a non-empty string or its `value` is
`null`/`undefined` (an empty-string value is accepted), and otherwise stores
`(key, String(value))` and answers 200 with `{success:true}`; a JSON `null`
body makes the handler's destructuring throw, and the request is answered 500
exactly then. -/
theorem c4_put_validation (body : JVal) :
    ((handlePut body).statusOf = 400 ↔
      (isNullish body = false
        ∧ (isNonEmptyStr (jgetField body "key") = false
            ∨ isNullish (jgetField body "value") = true)))
    ∧ ((handlePut body).statusOf = 500 ↔ isNullish body = true)
    ∧ (isNullish body = false →
        isNonEmptyStr (jgetField body "key") = true →
        isNullish (jgetField body "value") = false →
        handlePut body
          = PutResult.ok (strOf (jgetField body "key"))
              (jsToString (jgetField body "value"))) := by
  cases hb : isNullish body with
  | true =>
    refine ⟨by simp [handlePut, hb, PutResult.statusOf],
            by simp [handlePut, hb, PutResult.statusOf], ?_⟩
    intro hb' _ _
    simp at hb'
  | false =>
    refine ⟨?_, ?_, ?_⟩
    · cases hk : isNonEmptyStr (jgetField body "key") <;>
        cases hv : isNullish (jgetField body "value") <;>
          simp [handlePut, hb, hk, hv, PutResult.statusOf]
    · cases hk : isNonEmptyStr (jgetField body "key") <;>
        cases hv : isNullish (jgetField body "value") <;>
          simp [handlePut, hb, hk, hv, PutResult.statusOf]
    · intro _ hk hv
      simp [handlePut, hb, hk, hv]

/-- Witness for C4 at the boundary input `{key:"k", value:""}`: an
empty-string value is accepted and stored as the empty string. -/
theorem c4_put_validation_witness :
    handlePut (JVal.obj [("key", JVal.str "k"), ("value", JVal.str "")])
      = PutResult.ok "k" "" := by
  have h :=
    (c4_put_validation (JVal.obj [("key", JVal.str "k"), ("value", JVal.str "")])).2.2
      (by decide) (by decide) (by decide)
  exact h

/-- C5: for a non-empty key parameter, `GET /get/:key` answers 404 exactly
when the store's `get` yields absence, and otherwise 200 with the key and its
value. -/
theorem c5_get_not_found (key : String) (stored : Option String) (hk : key ≠ "") :
    ((handleGet key stored).statusOf = 404 ↔ stored = none)
    ∧ (∀ v, stored = some v →
        handleGet key stored = GetResult.ok key v
        ∧ (handleGet key stored).statusOf = 200) := by
  constructor
  · cases stored <;> simp [handleGet, hk, GetResult.statusOf]
  · intro v hv
    subst hv
    simp [handleGet, hk, GetResult.statusOf]

/-- Witness for C5: a miss on `nonexistent` answers 404, and a hit on
`user:1` with value `Alice` answers 200 with the pair. -/
theorem c5_get_not_found_witness :
    ((handleGet "nonexistent" none).statusOf = 404 ↔ (none : Option String) = none)
    ∧ handleGet "user:1" (some "Alice") = GetResult.ok "user:1" "Alice" :=
  ⟨(c5_get_not_found "nonexistent" none (by decide)).1,
   ((c5_get_not_found "user:1" (some "Alice") (by decide)).2 "Alice" rfl).1⟩

/-- C10: for every non-empty key, `DELETE /delete/:key` answers 200 with
`{success:true}` without consulting the store (the embedding takes no store
argument at all), so deleting an absent key succeeds exactly like deleting a
present one and the handler never answers 404. -/
theorem c10_delete_unconditional (key : String) (hk : key ≠ "") :
    handleDelete key = DelResult.ok key
    ∧ (handleDelete key).statusOf = 200
    ∧ (handleDelete key).statusOf ≠ 404 := by
  simp [handleDelete, hk, DelResult.statusOf]

/-- Witness for C10 at the absent key `never-written`: the delete still
answers 200. -/
theorem c10_delete_unconditional_witness :
    handleDelete "never-written" = DelResult.ok "never-written"
    ∧ (handleDelete "never-written").statusOf = 200 :=
  ⟨(c10_delete_unconditional "never-written" (by decide)).1,
   (c10_delete_unconditional "never-written" (by decide)).2.1⟩

/-- C8: `GET /replication/status` reports `enabled:false` when no status
provider is configured, and otherwise `enabled:true` with exactly the
provider's state and metrics; both adapters pass the wrapped manager's or
server's `getState()` and `getMetrics()` through unchanged. -/
theorem c8_replication_status {σ μ : Type}
    (m : IReplicationManager σ μ) (s : IReplicationServer σ μ) :
    (handleReplicationStatus (none : Option (IReplicationStatusProvider σ μ))).enabledFlag
        = false
    ∧ (∀ p : IReplicationStatusProvider σ μ,
        (handleReplicationStatus (some p)).enabledFlag = true
        ∧ handleReplicationStatus (some p)
            = ReplStatusResponse.enabledWith p.getReplicationStatus.state
                p.getReplicationStatus.metrics)
    ∧ handleReplicationStatus (some (ReplicationManagerStatusAdapter m))
        = ReplStatusResponse.enabledWith m.getState m.getMetrics
    ∧ handleReplicationStatus (some (ReplicationServerStatusAdapter s))
        = ReplStatusResponse.enabledWith s.getState s.getMetrics :=
  ⟨rfl, fun _ => ⟨rfl, rfl⟩, rfl, rfl⟩

/-! ### Claim C6 -/

/-- An element of `entries` is accepted when its `key` field is a non-empty
string and its `value` field is neither `null` nor `undefined` (the claim's
acceptance condition). -/
def entryValid (e : JVal) : Bool :=
  isNonEmptyStr (jgetField e "key") && !(isNullish (jgetField e "value"))

/-- The `(key, String(value))` pair extracted from an accepted entry. -/
def entryKV (e : JVal) : String × String :=
  (strOf (jgetField e "key"), jsToString (jgetField e "value"))

/-- A `keys[i]`/`values[i]` pair is accepted when the key is a non-empty
string and the value is neither `null` nor `undefined`. -/
def kvValid (p : JVal × JVal) : Bool :=
  isNonEmptyStr p.1 && !(isNullish p.2)

/-- Observation of a `BatchResult`: its HTTP status, and the reported count
on 200. -/
def batchView : BatchResult → Nat × Option Nat
  | BatchResult.internalError => (500, none)
  | BatchResult.badRequest _ => (400, none)
  | BatchResult.ok n => (200, some n)

/-- Claim C6 in the spec's words: the batch request succeeds, reporting the
store's count for the extracted pairs, exactly when it carries a non-empty
`entries` array of valid entries, or — with no `entries` array — parallel
`keys`/`values` arrays of equal length, non-empty and pairwise valid. -/
def specBatchPut (batchPut : List (String × String) → Nat) (body : JVal) : Option Nat :=
  match jgetField body "entries" with
  | JVal.arr es =>
    if es.isEmpty || !(es.all entryValid) then none
    else some (batchPut (es.map entryKV))
  | _ =>
    match jgetField body "keys", jgetField body "values" with
    | JVal.arr ks, JVal.arr vs =>
      if ks.length != vs.length || ks.isEmpty || !((ks.zip vs).all kvValid) then none
      else some (batchPut ((ks.zip vs).map (fun p => (strOf p.1, jsToString p.2))))
    | _, _ => none

/-- Claim C6 as amended, in the spec's words: a `null` (or `undefined`) body
makes the handler's destructuring throw and the request is answered 500;
otherwise the batch is rejected with 400 or accepted with 200 and the store's
count exactly as `specBatchPut` describes. -/
def specBatchView (batchPut : List (String × String) → Nat) (body : JVal) :
    Nat × Option Nat :=
  if isNullish body then (500, none)
  else
    match specBatchPut batchPut body with
    | some n => (200, some n)
    | none => (400, none)

/-- A valid entry is never falsy (validity forces it to be an object). -/
theorem entryValid_not_falsy (e : JVal) (h : entryValid e = true) : jfalsy e = false := by
  cases e <;> simp_all [entryValid, isNonEmptyStr, jgetField, jfalsy]

/-- When every entry is valid, the validation loop returns all extracted
pairs. -/
theorem parseEntriesFrom_ok (es : List JVal) :
    ∀ i, es.all entryValid = true → parseEntriesFrom i es = Except.ok (es.map entryKV) := by
  induction es with
  | nil => intro i _; rfl
  | cons e rest ih =>
    intro i h
    rw [List.all_cons, Bool.and_eq_true_iff] at h
    obtain ⟨he, hrest⟩ := h
    have hf := entryValid_not_falsy e he
    rw [entryValid, Bool.and_eq_true_iff] at he
    obtain ⟨hk, hv⟩ := he
    rw [Bool.not_eq_true'] at hv
    simp [parseEntriesFrom, hf, hk, hv, ih (i + 1) hrest, entryKV]

/-- When some entry is invalid, the validation loop aborts with an error. -/
theorem parseEntriesFrom_error (es : List JVal) :
    ∀ i, es.all entryValid = false → ∃ msg, parseEntriesFrom i es = Except.error msg := by
  induction es with
  | nil => intro i h; simp at h
  | cons e rest ih =>
    intro i h
    cases hc1 : (jfalsy e || !(isNonEmptyStr (jgetField e "key"))) with
    | true => exact ⟨_, by rw [parseEntriesFrom, if_pos hc1]⟩
    | false =>
      cases hc2 : isNullish (jgetField e "value") with
      | true =>
        exact ⟨_, by rw [parseEntriesFrom, if_neg (by simp [hc1]), if_pos hc2]⟩
      | false =>
        rw [Bool.or_eq_false_iff] at hc1
        obtain ⟨hf, hk⟩ := hc1
        rw [Bool.not_eq_false'] at hk
        have he : entryValid e = true := by
          rw [entryValid, hc2, hk]
          rfl
        rw [List.all_cons, he, Bool.true_and] at h
        obtain ⟨msg, hm⟩ := ih (i + 1) h
        refine ⟨msg, ?_⟩
        rw [parseEntriesFrom, if_neg (by simp [hf, hk]), if_neg (by simp [hc2]), hm]

/-- When the two arrays have equal length and every pair is valid, the
`keys`/`values` loop returns all extracted pairs. -/
theorem parseKVFrom_ok :
    ∀ (ks vs : List JVal) (i : Nat), ks.length = vs.length →
      (ks.zip vs).all kvValid = true →
      parseKVFrom i ks vs
        = Except.ok ((ks.zip vs).map (fun p => (strOf p.1, jsToString p.2)))
  | [], _, _, _, _ => rfl
  | _ :: _, [], _, hlen, _ => by simp at hlen
  | k :: ks, v :: vs, i, hlen, h => by
    rw [List.zip_cons_cons, List.all_cons, Bool.and_eq_true_iff] at h
    obtain ⟨hkv, hrest⟩ := h
    rw [kvValid, Bool.and_eq_true_iff] at hkv
    obtain ⟨hk, hv⟩ := hkv
    rw [Bool.not_eq_true'] at hv
    have ih := parseKVFrom_ok ks vs (i + 1) (by simpa using hlen) hrest
    simp only [parseKVFrom, List.headD_cons, List.tail_cons]
    rw [if_neg (by simp [hk]), if_neg (by simp [hv]), ih]
    simp

/-- When the two arrays have equal length and some pair is invalid, the
`keys`/`values` loop aborts with an error. -/
theorem parseKVFrom_error :
    ∀ (ks vs : List JVal) (i : Nat), ks.length = vs.length →
      (ks.zip vs).all kvValid = false →
      ∃ msg, parseKVFrom i ks vs = Except.error msg
  | [], _, _, _, h => by simp at h
  | _ :: _, [], _, hlen, _ => by simp at hlen
  | k :: ks, v :: vs, i, hlen, h => by
    cases hk : isNonEmptyStr k with
    | false =>
      exact ⟨_, by rw [parseKVFrom]; exact if_pos (by simp [hk])⟩
    | true =>
      cases hv : isNullish v with
      | true =>
        exact ⟨_, by
          rw [parseKVFrom, if_neg (by simp [hk])]
          simp only [List.headD_cons]
          rw [if_pos hv]⟩
      | false =>
        rw [List.zip_cons_cons, List.all_cons] at h
        have hkv : kvValid (k, v) = true := by
          rw [kvValid, hk, hv]
          rfl
        rw [hkv, Bool.true_and] at h
        obtain ⟨msg, hm⟩ := parseKVFrom_error ks vs (i + 1) (by simpa using hlen) h
        refine ⟨msg, ?_⟩
        rw [parseKVFrom]
        simp only [List.headD_cons, List.tail_cons]
        rw [if_neg (by simp [hk]), if_neg (by simp [hv]), hm]

/-- C6 counterexample: a JSON `null` body carries neither an `entries` array
nor `keys`/`values` arrays, so the claim allows only a 400 answer for it, but
the destructuring at line 199 throws and the request is answered 500. -/
theorem c6_batch_null_body_counterexample :
    (handleBatchPut List.length JVal.jsNull).statusOf = 500
    ∧ ¬ (handleBatchPut List.length JVal.jsNull).statusOf = 400
    ∧ ¬ (handleBatchPut List.length JVal.jsNull).statusOf = 200 := by
  refine ⟨rfl, by decide, by decide⟩

/-- C6 (amended): for every JSON body other than `null`, `POST /batch-put`
accepts an `entries` array or parallel `keys`/`values` arrays of equal
length; it answers 400 on an empty batch, any invalid key or value, or a
length mismatch, and otherwise 200 with `{success:true, count:N}` where `N`
is the count returned by the store's batch put; a JSON `null` body makes the
handler's destructuring throw and the request is answered 500. The theorem
states this as equality of the handler's status-and-count view with the
spec-side `specBatchView`. -/
theorem c6_batch_put (f : List (String × String) → Nat) (body : JVal) :
    batchView (handleBatchPut f body) = specBatchView f body := by
  cases hb : isNullish body with
  | true => simp [handleBatchPut, specBatchView, hb, batchView]
  | false =>
    unfold handleBatchPut specBatchView specBatchPut
    rw [if_neg (by simp [hb])]
    rw [if_neg (by simp [hb])]
    cases hent : jgetField body "entries"
    case arr es =>
      dsimp only
      cases hall : es.all entryValid with
      | true =>
        rw [parseEntriesFrom_ok es 0 hall]
        cases es with
        | nil => simp [batchView]
        | cons e rest => simp [batchView, hall]
      | false =>
        obtain ⟨msg, hm⟩ := parseEntriesFrom_error es 0 hall
        rw [hm]
        simp [batchView, hall]
    all_goals
      cases hks : jgetField body "keys" <;> cases hvs : jgetField body "values" <;> dsimp only
    all_goals
      first
      | (simp [batchView]; done)
      | (rename_i ks vs
         by_cases hlen : ks.length = vs.length
         · cases hall : (ks.zip vs).all kvValid with
           | true =>
             rw [parseKVFrom_ok ks vs 0 hlen hall]
             cases ks with
             | nil =>
               simp only [List.length_nil] at hlen
               simp [batchView, hlen]
             | cons k ks' =>
               cases vs with
               | nil => simp at hlen
               | cons v vs' => simp [batchView, hlen, hall]
           | false =>
             obtain ⟨msg, hm⟩ := parseKVFrom_error ks vs 0 hlen hall
             rw [hm]
             simp [batchView, hlen, hall]
         · simp [batchView, hlen])

/-! ### Claims C7 and C9 -/

/-- Test of whether a query string is the decimal numeral of a positive
integer (digits only, value at least 1). -/
def isPosIntString (s : String) : Bool :=
  !(s.data.isEmpty) && s.data.all Char.isDigit && decide (1 ≤ digitsToNat s.data)

/-- C7 counterexample: the limit string `5.7` is not a positive integer, yet
`GET /range?start=rng:001&end=rng:030&limit=5.7` is not rejected — the
handler answers 200, using `parseInt`'s integer prefix 5 as the cap. -/
theorem c7_limit_counterexample :
    isPosIntString "5.7" = false
    ∧ jsParseInt "5.7" = some 5
    ∧ (handleRange (readKeyRange rngStore) (some "rng:001") (some "rng:030")
        (some "5.7")).statusOf = 200
    ∧ (handleRange (readKeyRange rngStore) (some "rng:001") (some "rng:030")
        (some "5.7")).resultsOf.length = 5 := by
  refine ⟨rfl, rfl, ?_, ?_⟩ <;> decide

/-- C7 (amended): a provided limit is rejected with 400 exactly when
`parseInt(limit, 10)` is `NaN` or less than 1 (so `limit=0` and fully
non-numeric limits are rejected, while a string with an integer prefix of at
least 1, such as `5.7`, is accepted with that prefix as the cap); an accepted
limit caps the number of emitted pairs, and a limit at least the number of
available pairs returns all of them. -/
theorem c7_limit_amended (st : StoreState) (a b ls : String)
    (ha : a ≠ "") (hb : b ≠ "") :
    ((handleRange (readKeyRange st) (some a) (some b) (some ls)).statusOf = 400 ↔
      (jsParseInt ls = none ∨ ∃ n, jsParseInt ls = some n ∧ n < 1))
    ∧ (∀ n : Int, jsParseInt ls = some n → 1 ≤ n →
        handleRange (readKeyRange st) (some a) (some b) (some ls)
          = RangeResult.ok (readKeyRange st a b n.toNat)
        ∧ (readKeyRange st a b n.toNat).length ≤ n.toNat
        ∧ ((rangePairs st a b).length ≤ n.toNat →
            readKeyRange st a b n.toNat = rangePairs st a b)) := by
  constructor
  · cases hp : jsParseInt ls with
    | none => simp [handleRange, ha, hb, hp, RangeResult.statusOf]
    | some n =>
      by_cases hn : n < 1
      · simp [handleRange, ha, hb, hp, hn, RangeResult.statusOf]
      · simp [handleRange, ha, hb, hp, hn, RangeResult.statusOf]
  · intro n hp hn
    refine ⟨?_, ?_, ?_⟩
    · simp [handleRange, ha, hb, hp, not_lt.mpr hn]
    · rw [readKeyRange]
      simp [List.length_take]
    · intro hle
      rw [readKeyRange, List.take_of_length_le hle]

/-- Witness for C7 (amended) at `limit=5` over the 30-key store: the handler
answers 200 with the 5-pair cap. -/
theorem c7_limit_amended_witness :
    handleRange (readKeyRange rngStore) (some "rng:001") (some "rng:030") (some "5")
      = RangeResult.ok (readKeyRange rngStore "rng:001" "rng:030" (5 : Int).toNat)
    ∧ (readKeyRange rngStore "rng:001" "rng:030" (5 : Int).toNat).length
        ≤ (5 : Int).toNat := by
  have h :=
    (c7_limit_amended rngStore "rng:001" "rng:030" "5" (by decide) (by decide)).2
      5 (by decide) (by decide)
  exact ⟨h.1, h.2.1⟩

/-- C9: when the `limit` query parameter is omitted, `handleRange`
substitutes the default limit 100 before calling `readKeyRange`, so at most
100 pairs are returned even when more live keys lie in `[start, end]`. -/
theorem c9_range_default_limit (st : StoreState) (a b : String)
    (ha : a ≠ "") (hb : b ≠ "") :
    handleRange (readKeyRange st) (some a) (some b) none
      = RangeResult.ok (readKeyRange st a b 100)
    ∧ (handleRange (readKeyRange st) (some a) (some b) none).resultsOf.length ≤ 100 := by
  have h1 : handleRange (readKeyRange st) (some a) (some b) none
      = RangeResult.ok (readKeyRange st a b 100) := by
    simp [handleRange, ha, hb]
  refine ⟨h1, ?_⟩
  rw [h1]
  simp only [RangeResult.resultsOf, readKeyRange]
  simp [List.length_take]

/-- Witness for C9 over the 30-key store: the default-limit scan answers 200
with at most 100 pairs. -/
theorem c9_range_default_limit_witness :
    handleRange (readKeyRange rngStore) (some "rng:001") (some "rng:030") none
      = RangeResult.ok (readKeyRange rngStore "rng:001" "rng:030" 100)
    ∧ (handleRange (readKeyRange rngStore) (some "rng:001") (some "rng:030")
        none).resultsOf.length ≤ 100 :=
  c9_range_default_limit rngStore "rng:001" "rng:030" (by decide) (by decide)
